import Mathlib

/-
A shallow embedding of doxygen_squirrel_filter.py (squirrel2doxygen): a
filter that rewrites Squirrel (*.nut) scripts into a C++-like token stream
for doxygen.  Strings are modelled as lists of characters, the regular
expressions of the source are modelled by dedicated matcher functions that
reproduce the backtracking behaviour of the Python patterns, and Python
exceptions (ValueError, AttributeError, IndexError) are modelled by the
PyError type inside Except.
-/

namespace SquirrelFilter

/-- Convert a string literal to the character-list representation used
throughout the development. -/
def lit (s : String) : List Char := s.toList

/-- The opening brace character (regex re_blockstart). -/
def lbrace : Char := '\x7b'

/-- The closing brace character (regex re_blockend). -/
def rbrace : Char := '\x7d'

/-- The double quote character (regex re_string). -/
def dquote : Char := '\x22'

/-- The characters matched by the regex class \s (ASCII range). -/
def isSpaceCh (c : Char) : Bool :=
  c == ' ' || c == '\t' || c == '\n' || c == '\r' || c == '\x0b' || c == '\x0c'

/-- The characters matched by [a-zA-Z_]. -/
def isAlphaUnd (c : Char) : Bool :=
  ('a' ≤ c && c ≤ 'z') || ('A' ≤ c && c ≤ 'Z') || c == '_'

/-- The characters matched by [a-zA-Z_0-9]. -/
def isWordCh (c : Char) : Bool :=
  isAlphaUnd c || ('0' ≤ c && c ≤ '9')

/-- The characters matched by [a-zA-Z_0-9.] (class names may contain dots). -/
def isNameCh (c : Char) : Bool :=
  isWordCh c || c == '.'

/-- Length of the leading whitespace run (what a greedy \s* consumes). -/
def wsRun (s : List Char) : Nat := (s.takeWhile isSpaceCh).length

/-- Python str.startswith for a one-character prefix test on the underscore
(private-name convention). -/
def headUnderscore (s : List Char) : Bool :=
  match s with
  | c :: _ => c == '_'
  | [] => false

/-- re.search for a literal pattern: index of the leftmost occurrence of p
in s, if any. -/
def findSub (p : List Char) : List Char → Option Nat
  | [] => if p.isPrefixOf ([] : List Char) then some 0 else none
  | c :: t =>
    if p.isPrefixOf (c :: t) then some 0
    else (findSub p t).map (fun n => n + 1)

/-- Generic re.search: try the position matcher m at every start offset,
left to right, returning the first offset where it succeeds together with
the matcher's data.  The per-position matchers below each encode the
backtracking behaviour of the corresponding Python pattern at that start
position, so this reproduces leftmost-match semantics. -/
def re_search {α : Type} (m : List Char → Option α) : List Char → Option (Nat × α)
  | [] => (m ([] : List Char)).map (fun a => (0, a))
  | c :: t =>
    match m (c :: t) with
    | some a => some (0, a)
    | none => (re_search m t).map (fun p => (p.1 + 1, p.2))

/-- Position matcher for re_classname = \s*class\s+([a-zA-Z_]+[a-zA-Z_0-9.]*).
Returns (offset of match end, group 1).  The greedy \s* and \s+ runs are
forced maximal: any backtracked shorter run ends at a whitespace character,
which can start neither "class" nor the name group. -/
def classnameAt (s : List Char) : Option (Nat × List Char) :=
  let k := wsRun s
  let s1 := s.drop k
  if (lit "class").isPrefixOf s1 then
    let m := wsRun (s1.drop 5)
    if m == 0 then none
    else
      match s1.drop (5 + m) with
      | [] => none
      | c :: cs =>
        if isAlphaUnd c then
          let name := c :: cs.takeWhile isNameCh
          some (k + 5 + m + name.length, name)
        else none
  else none

/-- Position matcher for re_functionname =
\s*(function)\s+([a-zA-Z_]+[a-zA-Z_0-9]*).
Returns (offset of group 1 start, group 2). -/
def functionnameAt (s : List Char) : Option (Nat × List Char) :=
  let k := wsRun s
  let s1 := s.drop k
  if (lit "function").isPrefixOf s1 then
    let m := wsRun (s1.drop 8)
    if m == 0 then none
    else
      match s1.drop (8 + m) with
      | [] => none
      | c :: cs => if isAlphaUnd c then some (k, c :: cs.takeWhile isWordCh) else none
  else none

/-- Position matcher for re_classfunctionname =
\s*(function)\s+([a-zA-Z_]+[a-zA-Z_0-9.]*)::([a-zA-Z_]+[a-zA-Z_0-9]*).
Returns (offset of group 3 end, group 2, group 3).  The class-name group is
forced maximal: a backtracked shorter group ends at a name character, which
cannot match the following "::". -/
def classfunctionnameAt (s : List Char) : Option (Nat × List Char × List Char) :=
  let k := wsRun s
  let s1 := s.drop k
  if (lit "function").isPrefixOf s1 then
    let m := wsRun (s1.drop 8)
    if m == 0 then none
    else
      match s1.drop (8 + m) with
      | [] => none
      | c :: cs =>
        if isAlphaUnd c then
          let cname := c :: cs.takeWhile isNameCh
          let s2 := (s1.drop (8 + m)).drop cname.length
          if (lit "::").isPrefixOf s2 then
            match s2.drop 2 with
            | [] => none
            | d :: ds =>
              if isAlphaUnd d then
                let fname := d :: ds.takeWhile isWordCh
                some (k + 8 + m + cname.length + 2 + fname.length, cname, fname)
              else none
          else none
        else none
  else none

/-- Position matcher for re_privatevar = \s*([a-zA-Z_0-9]*)\s+=.
Returns (offset of group 1 start, group 1).  Backtracking analysis of the
Python pattern at one start position: with w the maximal \s* run, either the
word run g after it is nonempty and must be followed by a nonempty
whitespace run and '=' (no shorter g can work, as it would be followed by a
word character where \s+ needs whitespace), or g is empty, in which case the
only way to satisfy \s+ is to give one whitespace character back from \s*
(possible when w ≥ 1) and '=' must follow the whitespace run; the group is
then empty and starts at offset w - 1. -/
def privatevarAt (s : List Char) : Option (Nat × List Char) :=
  let w := wsRun s
  let s1 := s.drop w
  let g := s1.takeWhile isWordCh
  if g.length > 0 then
    let s2 := s1.drop g.length
    let m := wsRun s2
    if m > 0 && (s2.drop m).head? == some '=' then some (w, g) else none
  else
    if w > 0 && s1.head? == some '=' then some (w - 1, ([] : List Char)) else none

/-- Position matcher for re_privateenum = \s*(enum)\s+(_[a-zA-Z_0-9]*).
Returns (offset of group 1 start, group 2). -/
def privateenumAt (s : List Char) : Option (Nat × List Char) :=
  let k := wsRun s
  let s1 := s.drop k
  if (lit "enum").isPrefixOf s1 then
    let m := wsRun (s1.drop 4)
    if m == 0 then none
    else
      match s1.drop (4 + m) with
      | [] => none
      | c :: cs => if c == '_' then some (k, c :: cs.takeWhile isWordCh) else none
  else none

/-- Position matcher for re_require = require\s*\(.  Returns the match
length.  The greedy \s* run is forced maximal since no shorter run can be
followed by the required opening parenthesis. -/
def requireAt (s : List Char) : Option Nat :=
  if (lit "require").isPrefixOf s then
    let k := wsRun (s.drop 7)
    if (s.drop (7 + k)).head? == some '(' then some (7 + k + 1) else none
  else none

/-- Position matcher for re_import = import\s*\(.  Returns the match length. -/
def importAt (s : List Char) : Option Nat :=
  if (lit "import").isPrefixOf s then
    let k := wsRun (s.drop 6)
    if (s.drop (6 + k)).head? == some '(' then some (6 + k + 1) else none
  else none

/-- re_classend.match (anchored \s*;): true when an optional whitespace run
followed by a semicolon starts the text.  The greedy \s* is forced maximal
as a shorter run ends at a whitespace character, not ';'. -/
def re_classend_match (s : List Char) : Bool :=
  (s.drop (wsRun s)).head? == some ';'

/-- Sanity constant from the source (positions on a line never reach it). -/
def MAX_POS_ON_LINE : Nat := 999999

/-- Which of the three scanner match objects first_match returned. -/
inductive MatchKind where
  | ml
  | sl
  | str
deriving DecidableEq

/-- first_match: decide whether the earliest of the three matches is the
multi-line comment start, the single-line comment start, or the string
start, mirroring the source's position comparison with MAX_POS_ON_LINE as
the stand-in for a missing match.  The final else returns the string match
object even when it is None; the caller's "is None" test handles that case. -/
def first_match (ml sl qs : Option Nat) : Option MatchKind :=
  if ml = none ∧ sl = none ∧ qs = none then none
  else
    let pos_ml := ml.getD MAX_POS_ON_LINE
    let pos_sl := sl.getD MAX_POS_ON_LINE
    let pos_str := qs.getD MAX_POS_ON_LINE
    if pos_ml < pos_sl ∧ pos_ml < pos_str then some MatchKind.ml
    else if pos_sl < pos_ml ∧ pos_sl < pos_str then some MatchKind.sl
    else some MatchKind.str

/-- Python exceptions that the filter can raise. -/
inductive PyError where
  | valueError (msg : String)
  | attributeError
  | indexError
deriving DecidableEq

/-- ClassData: per-class record of member functions (class ClassData). -/
structure ClassData where
  classname : List Char
  functions : List (List Char)
  missing : List (List Char)
  params : List (List Char)
  output_buffer : List Char
deriving DecidableEq

/-- ClassData.__init__. -/
def ClassData.new (name : List Char) : ClassData :=
  { classname := name, functions := [], missing := [], params := [], output_buffer := [] }

/-- The user-configurable switches at the top of the source file. -/
structure Config where
  keep_function : Bool
  keep_constructor : Bool
  check_end_of_class : Bool
  track_class_functions : Bool
  hide_private_symbols : Bool
deriving DecidableEq

/-- The settings as shipped in the source (all five switches True; the rule
that track_class_functions forces check_end_of_class is already satisfied). -/
def srcConfig : Config :=
  { keep_function := true, keep_constructor := true, check_end_of_class := true,
    track_class_functions := true, hide_private_symbols := true }

/-- The mutable scanner state of SquirrelFilter.  cur_class holds the index
into classes of the object Python's self.cur_class references (None when
cleared); stderrBuf records the messages alwaysprint sends to stderr. -/
structure FilterState where
  in_multiline_comment : Bool
  current_class : List Char
  want_class_start : Bool
  want_class_end : Bool
  block_level : Int
  classes : List ClassData
  class_names : List (List Char)
  outbuf : List Char
  need_function_params : Bool
  params_buf : List Char
  cur_class : Option Nat
  stderrBuf : List (List Char)
deriving DecidableEq

/-- The state at the start of a run (class variables plus __init__). -/
def initState : FilterState :=
  { in_multiline_comment := false, current_class := [], want_class_start := false,
    want_class_end := false, block_level := 0, classes := [], class_names := [],
    outbuf := [], need_function_params := false, params_buf := [],
    cur_class := none, stderrBuf := [] }

/-- Apply f to the i-th element of a list (models mutation through the
Python object reference self.cur_class, which always aliases a live entry
of self.classes). -/
def modifyNth {α : Type} (l : List α) (i : Nat) (f : α → α) : List α :=
  match l, i with
  | [], _ => []
  | x :: xs, 0 => f x :: xs
  | x :: xs, n + 1 => x :: modifyNth xs n f

/-- Python list.index: position of the first occurrence, ValueError when
absent. -/
def listIndex (l : List (List Char)) (a : List Char) : Except PyError Nat :=
  match l with
  | [] => Except.error (PyError.valueError "not in list")
  | x :: xs =>
    if x = a then Except.ok 0
    else (listIndex xs a).map (fun n => n + 1)

/-- Insert text ins at position i of s (output[:i] + ins + output[i:]). -/
def insertAt (s : List Char) (i : Nat) (ins : List Char) : List Char :=
  s.take i ++ ins ++ s.drop i

/-- SquirrelFilter.check_end_of_class: if no \s*; follows the closing brace,
prepend a ';' to the remaining text; additionally, when the scanner was
waiting for the end of a class and the level is back to 0, clear
want_class_end and cur_class. -/
def check_end_of_class (st : FilterState) (part : List Char) : FilterState × List Char :=
  let part1 := if re_classend_match part then part else ';' :: part
  if st.want_class_end && st.block_level == 0 then
    ({ st with want_class_end := false, cur_class := none }, part1)
  else (st, part1)

/-- The ValueError message raised by parse_blocks. -/
def endlessMsg (l : Int) : String :=
  "Endless loop detected in parse_blocks! Block level is " ++ toString l

/-- SquirrelFilter.parse_blocks, scanning character by character instead of
slicing at the regex matches for braces; the visible output and state are
the same since between braces the loop only copies text.
On an opening brace the level is incremented; on a closing brace the level
is decremented and end_of_block runs: if the level reaches 0 while
want_class_end is set, the output buffer assembled so far (self.outbuf plus
the output of this call before the brace) is sealed as the current class's
output_buffer, self.outbuf resets, and the closing brace starts the new
running output.  check_end_of_class then inspects the text after the brace;
the ';' it may prepend to the unscanned text is routed directly to the
output accumulator, which is equivalent because the brace scan never
inspects it.  After each processed brace the source checks the sanity bound
on the level and raises ValueError outside [0, 50]. -/
def parse_blocks_go (st : FilterState) (output : List Char) :
    List Char → Except PyError (FilterState × List Char)
  | [] => Except.ok (st, output)
  | c :: rest =>
    if c == lbrace then
      let st1 := { st with block_level := st.block_level + 1 }
      if st1.block_level < 0 ∨ st1.block_level > 50 then
        Except.error (PyError.valueError (endlessMsg st1.block_level))
      else
        parse_blocks_go st1 (output ++ [c]) rest
    else if c == rbrace then
      let st1 := { st with block_level := st.block_level - 1 }
      if st1.block_level == 0 && st1.want_class_end then
        -- end of class: seal the buffer of the current class
        match st1.cur_class with
        | none => Except.error PyError.attributeError
        | some ci =>
          let sealed := st1.outbuf ++ output
          let st2 :=
            { st1 with
                classes := modifyNth st1.classes ci (fun cd => { cd with output_buffer := sealed }),
                outbuf := [] }
          let q := check_end_of_class st2 rest
          let out2 := [rbrace] ++ q.2.take (q.2.length - rest.length)
          if q.1.block_level < 0 ∨ q.1.block_level > 50 then
            Except.error (PyError.valueError (endlessMsg q.1.block_level))
          else
            parse_blocks_go q.1 out2 rest
      else
        let q := check_end_of_class st1 rest
        let out2 := (output ++ [rbrace]) ++ q.2.take (q.2.length - rest.length)
        if q.1.block_level < 0 ∨ q.1.block_level > 50 then
          Except.error (PyError.valueError (endlessMsg q.1.block_level))
        else
          parse_blocks_go q.1 out2 rest
    else
      parse_blocks_go st (output ++ [c]) rest

/-- SquirrelFilter.parse_blocks entry point. -/
def parse_blocks (st : FilterState) (part : List Char) :
    Except PyError (FilterState × List Char) :=
  parse_blocks_go st [] part

/-- SquirrelFilter.check_params_end: while looking for the end of a
function's parameters, accumulate text up to and including the first ')'
and record it on the current class (AttributeError if cur_class is None,
as in Python a method call on None would raise). -/
def check_params_end (st : FilterState) (part : List Char) : Except PyError FilterState :=
  if st.need_function_params then
    match findSub [')'] part with
    | some i =>
      match st.cur_class with
      | none => Except.error PyError.attributeError
      | some ci =>
        Except.ok
          { st with
              classes := modifyNth st.classes ci
                (fun cd => { cd with params := cd.params ++ [st.params_buf ++ part.take (i + 1)] }),
              need_function_params := false,
              params_buf := [] }
    | none => Except.ok { st with params_buf := st.params_buf ++ part }
  else Except.ok st

/-- Rewrite rule 1: replace the first <- with = (re_assignment). -/
def subst_assignment (s : List Char) : List Char :=
  match findSub (lit "<-") s with
  | some i => s.take i ++ lit "=" ++ s.drop (i + 2)
  | none => s

/-- Rewrite rule 2: replace the first extends with : (re_extends). -/
def subst_extends (s : List Char) : List Char :=
  match findSub (lit "extends") s with
  | some i => s.take i ++ lit ":" ++ s.drop (i + 7)
  | none => s

/-- Class registration: when re_classname matches, remember the class name,
create its ClassData, and set want_class_start; returns the new state and
the start_pos (end of the match) after which the class's opening brace is
looked for. -/
def class_register (st : FilterState) (output : List Char) : FilterState × Nat :=
  match re_search classnameAt output with
  | none => (st, 0)
  | some (i, endOff, name) =>
    ({ st with
        want_class_start := true,
        current_class := name,
        cur_class := some st.classes.length,
        classes := st.classes ++ [ClassData.new name],
        class_names := st.class_names ++ [name],
        stderrBuf := st.stderrBuf ++ [lit "class " ++ name ++ lit "\n"] },
     i + endOff)

/-- Class start: when want_class_start is set, find the next opening brace
and insert "public:" right after it, switching to want_class_end. -/
def class_start_step (st : FilterState) (start_pos : Nat) (output : List Char) :
    FilterState × List Char :=
  if st.want_class_start then
    let first_part := output.take start_pos
    let last_part := output.drop start_pos
    match findSub [lbrace] last_part with
    | some j =>
      ({ st with want_class_start := false, want_class_end := true },
       first_part ++ last_part.take (j + 1) ++ lit "public:" ++ last_part.drop (j + 1))
    | none => (st, output)
  else (st, output)

/-- Record a member function found inside the class body on cur_class. -/
def addInsideFn (st : FilterState) (name : List Char) : Except PyError FilterState :=
  match st.cur_class with
  | none => Except.error PyError.attributeError
  | some ci =>
    Except.ok
      { st with classes :=
          modifyNth st.classes ci (fun cd => { cd with functions := cd.functions ++ [name] }) }

/-- The function-tracking portion of filter_part (active when
track_class_functions is set): finish a pending parameter capture, then
either record a function declared inside the open class (with a private
marker for underscore names when hiding is on), or, at top level, resolve a
function Class::name definition against the known class names (ValueError
when the class is unknown), append it to that class's missing list when it
is new and not hidden, and begin parameter capture. -/
def track_step (cfg : Config) (st : FilterState) (output : List Char) :
    Except PyError (FilterState × List Char) :=
  if cfg.track_class_functions then
    (if st.need_function_params then check_params_end st output else Except.ok st) >>= fun st1 =>
    if st1.want_class_end then
      match re_search functionnameAt output with
      | none => Except.ok (st1, output)
      | some (i, k, name) =>
        (addInsideFn st1 name).map fun st2 =>
          if cfg.hide_private_symbols && headUnderscore name then
            (st2, insertAt output (i + k) (lit " /** @private */ "))
          else (st2, output)
    else if st1.block_level == 0 then
      match re_search classfunctionnameAt output with
      | none => Except.ok (st1, output)
      | some (i, e3, cname, fname) =>
        (listIndex st1.class_names cname) >>= fun cidx =>
        let st2 := { st1 with cur_class := some cidx }
        let cd := (st2.classes.get? cidx).getD (ClassData.new [])
        if cd.functions.count fname == 0 && !(cfg.hide_private_symbols && headUnderscore fname) then
          let st3 :=
            { st2 with
                classes := modifyNth st2.classes cidx
                  (fun c => { c with missing := c.missing ++ [fname] }),
                need_function_params := true }
          (check_params_end st3 (output.drop (i + e3))).map fun st4 => (st4, output)
        else Except.ok (st2, output)
    else Except.ok (st1, output)
  else Except.ok (st, output)

/-- The doc marker injected before a private symbol: "internal" at global
scope, "private" inside a class. -/
def doxyCmd (lvl : Int) : List Char :=
  if lvl == 0 then lit " /** @internal */ " else lit " /** @private */ "

/-- Private variable/enum hiding: only at global scope (level 0) or global
class scope (level 1 with an open class); inject the doc marker before a
private-named assignment target or enum name. -/
def inject_private (cfg : Config) (lvl : Int) (wce : Bool) (output : List Char) : List Char :=
  if cfg.hide_private_symbols && (lvl == 0 || (wce && lvl == 1)) then
    let output1 :=
      match re_search privatevarAt output with
      | some (i, w, grp) =>
        if headUnderscore grp then insertAt output (i + w) (doxyCmd lvl) else output
      | none => output
    match re_search privateenumAt output1 with
    | some (i, k, grp2) =>
      if headUnderscore grp2 then insertAt output1 (i + k) (doxyCmd lvl) else output1
    | none => output1
  else output

/-- Constructor rule: replace constructor by the current class name, or keep
it and append the class name after it, per keep_constructor. -/
def subst_constructor (cfg : Config) (current_class : List Char) (s : List Char) : List Char :=
  match findSub (lit "constructor") s with
  | some i =>
    if cfg.keep_constructor then
      s.take (i + 11) ++ lit " " ++ current_class ++ s.drop (i + 11)
    else
      s.take i ++ current_class ++ s.drop (i + 11)
  | none => s

/-- Function-keyword rule: drop the first "function" when keep_function is
off. -/
def subst_function (cfg : Config) (s : List Char) : List Char :=
  if cfg.keep_function then s
  else
    match findSub (lit "function") s with
    | some i => s.take i ++ s.drop (i + 8)
    | none => s

/-- require( rule: replace by "#include " (the stray ')' is left as-is). -/
def subst_require (s : List Char) : List Char :=
  match re_search requireAt s with
  | some (i, len) => s.take i ++ lit "#include " ++ s.drop (i + len)
  | none => s

/-- import( rule: replace by "#include " (the stray ')' is left as-is). -/
def subst_import (s : List Char) : List Char :=
  match re_search importAt s with
  | some (i, len) => s.take i ++ lit "#include " ++ s.drop (i + len)
  | none => s

/-- The pure substitution steps of filter_part, excluding class
registration, function tracking and the brace/segment-cut pass, in source
order: assignment, extends, private markers, constructor, function keyword,
require, import. -/
def rewrite_rules (cfg : Config) (current_class : List Char) (lvl : Int) (wce : Bool)
    (s : List Char) : List Char :=
  subst_import (subst_require (subst_function cfg
    (subst_constructor cfg current_class
      (inject_private cfg lvl wce (subst_extends (subst_assignment s))))))

/-- SquirrelFilter.filter_part: apply the substitution rules and the
registration, tracking, privacy, and brace passes to one plain-code span,
then append the result to the output buffer. -/
def filter_part (cfg : Config) (st : FilterState) (part : List Char) :
    Except PyError FilterState :=
  let output := subst_assignment part
  let output := subst_extends output
  let reg := class_register st output
  let cls := class_start_step reg.1 reg.2 output
  (track_step cfg cls.1 cls.2) >>= fun tr =>
  let output := inject_private cfg tr.1.block_level tr.1.want_class_end tr.2
  let output := subst_constructor cfg tr.1.current_class output
  let output := subst_function cfg output
  let output := subst_require output
  let output := subst_import output
  (if cfg.check_end_of_class then parse_blocks tr.1 output
   else Except.ok (tr.1, output)) >>= fun pb =>
  Except.ok { pb.1 with outbuf := pb.1.outbuf ++ pb.2 }

/-- The warning alwaysprint sends to stderr for a string whose end is not
found on the line. -/
def warnMsg (lineno : Nat) : List Char :=
  lit "** Warning: didn\x27t find end of string on line" ++ (toString (lineno + 1)).toList

/-- SquirrelFilter.line_handler: the while loop, with explicit fuel.  Every
iteration that does not leave the loop consumes at least one character of
temp_line (a multi-line comment delimiter consumes its two characters; the
string branch consumes at least the quote itself), so fuel = length + 1 is
always sufficient and the fuel-exhaustion branch is unreachable. -/
def line_handler_go (cfg : Config) : Nat → FilterState → List Char → Nat →
    Except PyError FilterState
  | 0, _, _, _ => Except.error (PyError.valueError "out of fuel")
  | fuel + 1, st, t, lineno =>
    if st.in_multiline_comment then
      match findSub (lit "*/") t with
      | none => Except.ok { st with outbuf := st.outbuf ++ t }
      | some i =>
        line_handler_go cfg fuel
          { st with in_multiline_comment := false, outbuf := st.outbuf ++ t.take (i + 2) }
          (t.drop (i + 2)) lineno
    else
      let ml := findSub (lit "/*") t
      let sl := findSub (lit "//") t
      let qs := findSub [dquote] t
      match first_match ml sl qs with
      | none => filter_part cfg st t
      | some k =>
        -- Python compares the returned match object; when it is None the
        -- "next_match is None" test takes the break branch.
        match (match k with | MatchKind.ml => ml | MatchKind.sl => sl | MatchKind.str => qs) with
        | none => filter_part cfg st t
        | some i =>
          match k with
          | MatchKind.ml =>
            (filter_part cfg { st with in_multiline_comment := true } (t.take (i + 2))) >>=
              fun st1 => line_handler_go cfg fuel st1 (t.drop (i + 2)) lineno
          | MatchKind.sl =>
            (filter_part cfg st (t.take i)).map fun st1 =>
              { st1 with outbuf := st1.outbuf ++ t.drop i }
          | MatchKind.str =>
            (filter_part cfg st (t.take i)) >>= fun st1 =>
            let t1 := t.drop i
            match findSub [dquote] t1 with
            | none =>
              Except.ok
                { st1 with stderrBuf := st1.stderrBuf ++ [warnMsg lineno],
                           outbuf := st1.outbuf ++ t1 }
            | some e =>
              line_handler_go cfg fuel
                { st1 with outbuf := st1.outbuf ++ t1.take (e + 1) } (t1.drop (e + 1)) lineno

/-- SquirrelFilter.line_handler entry point. -/
def line_handler (cfg : Config) (st : FilterState) (line : List Char) (lineno : Nat) :
    Except PyError FilterState :=
  line_handler_go cfg (line.length + 1) st line lineno

/-- The line loop of SquirrelFilter.filter: feed every line, with its
index, to line_handler. -/
def scanLines (cfg : Config) : FilterState → Nat → List (List Char) →
    Except PyError FilterState
  | st, _, [] => Except.ok st
  | st, i, l :: ls => (line_handler cfg st l i) >>= fun st1 => scanLines cfg st1 (i + 1) ls

/-- Scan a whole file (list of lines, line endings included) from the
initial state. -/
def runScan (cfg : Config) (lines : List (List Char)) : Except PyError FilterState :=
  scanLines cfg initState 0 lines

/-- The stub-emission loop of SquirrelFilter.filter: for each missing
function (by position), emit the configured function keyword, the name, the
captured parameter list at the same index (IndexError when params is too
short, as in Python), and ";\n". -/
def emitStubs (fstr : List Char) : List (List Char) → List (List Char) →
    Except PyError (List Char)
  | [], _ => Except.ok []
  | _ :: _, [] => Except.error PyError.indexError
  | fn :: ms, p :: ps =>
    (emitStubs fstr ms ps).map fun r => fstr ++ fn ++ p ++ lit ";\n" ++ r

/-- Per-class emission: the sealed buffer of everything before the class's
closing brace, then the synthesized stub declarations. -/
def emitClasses (fstr : List Char) : List ClassData → Except PyError (List Char)
  | [] => Except.ok []
  | c :: cs =>
    (emitStubs fstr c.missing c.params) >>= fun stubs =>
    (emitClasses fstr cs).map fun rest => c.output_buffer ++ stubs ++ rest

/-- The emission pass of SquirrelFilter.filter after the scan: per-class
buffers with stubs, then the trailing running buffer.  WriteBuf's encoding
is modelled as lossless (encoding of output bytes is outside the core). -/
def emitOutput (cfg : Config) (st : FilterState) : Except PyError (List Char) :=
  let fstr := if cfg.keep_function then lit "function " else []
  (emitClasses fstr st.classes).map fun body => body ++ st.outbuf

/-- SquirrelFilter.filter: one forward scan over the lines followed by the
emission pass. -/
def runFilter (cfg : Config) (lines : List (List Char)) : Except PyError (List Char) :=
  (runScan cfg lines) >>= emitOutput cfg

/-- Spec-side predicate, following the spec's words: the text immediately
after a closing brace already begins with an optional-whitespace-then-
semicolon sequence.  Stated independently of the regex embedding
re_classend_match so that the two can be compared. -/
def terminator_follows (s : List Char) : Bool :=
  match s.dropWhile isSpaceCh with
  | c :: _ => c == ';'
  | [] => false

/-- The contribution of one character to the nesting depth. -/
def braceDelta (c : Char) : Int :=
  if c == lbrace then 1 else if c == rbrace then -1 else 0

/-- Total brace balance of a span. -/
def braceSum (s : List Char) : Int := (s.map braceDelta).sum

/-- All intermediate nesting depths reached after each brace of the span,
starting from level l, stay within the sanity bound [0, 50] that
parse_blocks checks after processing each brace. -/
def okLevelsB : Int → List Char → Bool
  | _, [] => true
  | l, c :: rest =>
    if c == lbrace then
      decide (0 ≤ l + 1 ∧ l + 1 ≤ 50) && okLevelsB (l + 1) rest
    else if c == rbrace then
      decide (0 ≤ l - 1 ∧ l - 1 ≤ 50) && okLevelsB (l - 1) rest
    else okLevelsB l rest

/-- Concrete input for the stub-placement scenario: a class with two
body-declared functions and one out-of-body definition after the class
closes. -/
def fileC1 : List (List Char) :=
  [lit "class Foo \x7b\n",
   lit "function f1() \x7b\x7d\n",
   lit "function f2() \x7b\x7d\n",
   lit "\x7d\n",
   lit "function Foo::f3(a, b) \x7b\n",
   lit "\x7d\n"]

/-- Concrete input whose out-of-body definition's parameter list is still
open when the file ends: the capture never completes. -/
def fileC3incomplete : List (List Char) :=
  [lit "class Foo \x7b\n", lit "\x7d\n", lit "function Foo::bar(a,\n"]

/-- Concrete input whose out-of-body definition's parameter list closes on
the same line that registers it. -/
def fileC3closed : List (List Char) :=
  [lit "class Foo \x7b\n", lit "\x7d\n", lit "function Foo::bar(a, b)\n"]

/-- Concrete input of the stub-placement family in which the out-of-body
function f3 is also declared inside the class body: the class has
body-declared functions f1 and f2 and one out-of-body definition
Foo::f3(a, b) after the class's closing brace. -/
def fileC1declared : List (List Char) :=
  [lit "class Foo \x7b\n",
   lit "function f1() \x7b\x7d\n",
   lit "function f2() \x7b\x7d\n",
   lit "function f3() \x7b\x7d\n",
   lit "\x7d\n",
   lit "function Foo::f3(a, b) \x7b\n",
   lit "\x7d\n"]

/-- Concrete input in which a second out-of-body registration occurs while
the first parameter capture is still open: the two captures merge, and the
single closing parenthesis completes only one params entry for the class's
two missing entries. -/
def fileC3merged : List (List Char) :=
  [lit "class Foo \x7b\n", lit "\x7d\n",
   lit "function Foo::a(x\n", lit "function Foo::b(y\n", lit ")\n"]

/-
Theorems.
-/

/-- Bind of a successful Except computation. -/
theorem except_bind_ok {e a b : Type} (x : a) (f : a → Except e b) :
    (Except.ok x >>= f) = f x := rfl

/-- Bind of a failed Except computation propagates the error. -/
theorem except_bind_err {e a b : Type} (err : e) (f : a → Except e b) :
    ((Except.error err : Except e a) >>= f) = Except.error err := rfl

/-- Map over a successful Except computation. -/
theorem except_map_ok {e a b : Type} (x : a) (f : a → b) :
    (Except.ok x : Except e a).map f = Except.ok (f x) := rfl

/-- Map over a failed Except computation propagates the error. -/
theorem except_map_err {e a b : Type} (err : e) (f : a → b) :
    (Except.error err : Except e a).map f = Except.error err := rfl

/-- Splitting the per-class emission at any one class: the emitted text is
the emission of the preceding classes, then this class's sealed segment
immediately followed by its stubs, then the emission of the later classes. -/
theorem emitClasses_split (fstr : List Char) (pre : List ClassData) :
    ∀ (c : ClassData) (post : List ClassData) (body : List Char),
    emitClasses fstr (pre ++ c :: post) = Except.ok body →
    ∃ a stubs rest, emitClasses fstr pre = Except.ok a ∧
      emitStubs fstr c.missing c.params = Except.ok stubs ∧
      emitClasses fstr post = Except.ok rest ∧
      body = a ++ c.output_buffer ++ stubs ++ rest := by
  induction pre with
  | nil =>
    intro c post body h
    rw [List.nil_append, emitClasses] at h
    cases hstubs : emitStubs fstr c.missing c.params with
    | error e => rw [hstubs, except_bind_err] at h; exact Except.noConfusion h
    | ok stubs =>
      rw [hstubs, except_bind_ok] at h
      cases hrest : emitClasses fstr post with
      | error e => rw [hrest, except_map_err] at h; exact Except.noConfusion h
      | ok rest =>
        rw [hrest, except_map_ok] at h
        refine ⟨[], stubs, rest, rfl, rfl, rfl, ?_⟩
        injection h with h2
        rw [← h2]
        simp
  | cons d pre2 ih =>
    intro c post body h
    rw [List.cons_append, emitClasses] at h
    cases hsd : emitStubs fstr d.missing d.params with
    | error e => rw [hsd, except_bind_err] at h; exact Except.noConfusion h
    | ok sd =>
      rw [hsd, except_bind_ok] at h
      cases hb2 : emitClasses fstr (pre2 ++ c :: post) with
      | error e => rw [hb2, except_map_err] at h; exact Except.noConfusion h
      | ok body2 =>
        rw [hb2, except_map_ok] at h
        injection h with h2
        obtain ⟨a2, stubs, rest, ha2, hstubs, hrest, hbody2⟩ := ih c post body2 hb2
        refine ⟨d.output_buffer ++ sd ++ a2, stubs, rest, ?_, hstubs, hrest, ?_⟩
        · rw [emitClasses, hsd, except_bind_ok, ha2, except_map_ok]
        · rw [← h2, hbody2]
          simp [List.append_assoc]

set_option maxRecDepth 4000 in
/-- C1 (counterexample): fileC1declared belongs to the claimed family — it
contains a class with body-declared functions f1 and f2 and one out-of-body
definition Foo::f3(a, b) after the class's closing brace — but because f3
is also declared inside the body, the registration test
functions.count(fname) == 0 fails, no stub is synthesized, and the emitted
output holds no occurrence of the stub text at all, refuting the
universally quantified claim. -/
theorem c1_counterexample :
    runFilter srcConfig fileC1declared =
      Except.ok
        (lit "class Foo \x7bpublic:\n" ++
         lit "function f1() \x7b\x7d;\n" ++
         lit "function f2() \x7b\x7d;\n" ++
         lit "function f3() \x7b\x7d;\n" ++
         lit "\x7d;\n" ++
         lit "function Foo::f3(a, b) \x7b\n\x7d;\n") ∧
    findSub (lit "function f3(a, b);")
      (lit "class Foo \x7bpublic:\nfunction f1() \x7b\x7d;\nfunction f2() \x7b\x7d;\nfunction f3() \x7b\x7d;\n\x7d;\nfunction Foo::f3(a, b) \x7b\n\x7d;\n") =
      none := by
  exact ⟨rfl, rfl⟩

/-- C1 (amended): placement of synthesized stubs.  (a) For every
configuration and every scan state, whenever the emission pass succeeds,
each class's synthesized stub declarations are emitted immediately after
that class's sealed segment and before all later output — and by the
segment-cut protocol the later output begins with that class's real
closing brace.  (b) Representative scenario: for the input with
body-declared f1 and f2 and the single out-of-body definition Foo::f3(a, b)
not declared inside the body, the full output is exactly the class opening
with the injected public marker, f1, f2, the synthesized stub
"function f3(a, b);", and only then the class's real closing brace with
its terminator, followed by the trailing top-level text. -/
theorem c1_stub_placement :
    (∀ (cfg : Config) (st : FilterState) (pre post : List ClassData) (c : ClassData)
      (out : List Char),
      st.classes = pre ++ c :: post →
      emitOutput cfg st = Except.ok out →
      ∃ a stubs b,
        emitClasses (if cfg.keep_function then lit "function " else []) pre = Except.ok a ∧
        emitStubs (if cfg.keep_function then lit "function " else []) c.missing c.params =
          Except.ok stubs ∧
        out = a ++ c.output_buffer ++ stubs ++ b) ∧
    runFilter srcConfig fileC1 =
      Except.ok
        (lit "class Foo \x7bpublic:\n" ++
         lit "function f1() \x7b\x7d;\n" ++
         lit "function f2() \x7b\x7d;\n" ++
         lit "function f3(a, b);\n" ++
         lit "\x7d;\n" ++
         lit "function Foo::f3(a, b) \x7b\n\x7d;\n") := by
  constructor
  · intro cfg st pre post c out hcls hemit
    simp only [emitOutput] at hemit
    cases hb : emitClasses (if cfg.keep_function then lit "function " else []) st.classes with
    | error e => rw [hb, except_map_err] at hemit; exact Except.noConfusion hemit
    | ok body =>
      rw [hb, except_map_ok] at hemit
      injection hemit with h2
      rw [hcls] at hb
      obtain ⟨a, stubs, rest, ha, hstubs, _, hbody⟩ :=
        emitClasses_split _ pre c post body hb
      refine ⟨a, stubs, rest ++ st.outbuf, ha, hstubs, ?_⟩
      rw [← h2, hbody]
      simp [List.append_assoc]
  · rfl

/-- Witness for C1: the placement part applied to a concrete one-class
state, and the scenario run. -/
theorem c1_witness :
    (∃ a stubs b,
      emitClasses (if srcConfig.keep_function then lit "function " else []) [] = Except.ok a ∧
      emitStubs (if srcConfig.keep_function then lit "function " else [])
        (ClassData.mk (lit "Foo") [] [lit "f3"] [lit "(a, b)"] (lit "SEG")).missing
        (ClassData.mk (lit "Foo") [] [lit "f3"] [lit "(a, b)"] (lit "SEG")).params =
        Except.ok stubs ∧
      lit "SEGfunction f3(a, b);\n\x7d;\n" =
        a ++ (ClassData.mk (lit "Foo") [] [lit "f3"] [lit "(a, b)"] (lit "SEG")).output_buffer ++
          stubs ++ b) ∧
    runFilter srcConfig fileC1 =
      Except.ok
        (lit "class Foo \x7bpublic:\n" ++
         lit "function f1() \x7b\x7d;\n" ++
         lit "function f2() \x7b\x7d;\n" ++
         lit "function f3(a, b);\n" ++
         lit "\x7d;\n" ++
         lit "function Foo::f3(a, b) \x7b\n\x7d;\n") :=
  ⟨c1_stub_placement.1 srcConfig
      { initState with classes := [ClassData.mk (lit "Foo") [] [lit "f3"] [lit "(a, b)"] (lit "SEG")], outbuf := lit "\x7d;\n" }
      [] [] (ClassData.mk (lit "Foo") [] [lit "f3"] [lit "(a, b)"] (lit "SEG"))
      (lit "SEGfunction f3(a, b);\n\x7d;\n") rfl rfl,
   c1_stub_placement.2⟩

/-- C8: the input line require("foo.nut"); is emitted as
#include "foo.nut"); — the require( token is replaced by "#include ", the
string literal is copied through unmodified, and the stray trailing closing
parenthesis is left as-is. -/
theorem c8_require_rewrite :
    runFilter srcConfig [lit "require(\x22foo.nut\x22);"] =
      Except.ok (lit "#include \x22foo.nut\x22);") := by
  rfl

/-- C9 (evaluation at the failing input): on a line whose string literal
has no terminating quote, the scanner does NOT log any warning (the
diagnostic buffer stays empty) and the remainder of the line is run through
the rewrite rules rather than copied unfiltered: the field-assignment sigil
inside the unterminated string is rewritten to "=".  The re-search for the
quote is made on the text starting at the opening quote itself, so it
always succeeds at offset 0 and the warning branch is unreachable. -/
theorem c9_no_warning_eval :
    line_handler srcConfig initState (lit "s = \x22a <- b") 0 =
      Except.ok { initState with outbuf := lit "s = \x22a = b" } := by
  rfl

/-- C3 (counterexample): two inputs refute the unconditional invariant.
First, a file ending mid-parameter-list: at end of scan the only class has
one entry in its missing list but an empty params list, and the emission
pass aborts with IndexError.  Second, a file in which a second out-of-body
registration occurs while the first capture is still open: the captures
merge, the single closing parenthesis produces one params entry for two
missing entries, and emission again aborts with IndexError. -/
theorem c3_counterexample :
    ((runScan srcConfig fileC3incomplete).map
        (fun st => st.classes.map (fun c => (c.missing.length, c.params.length))) =
      Except.ok [(1, 0)] ∧
    runFilter srcConfig fileC3incomplete = Except.error PyError.indexError) ∧
    ((runScan srcConfig fileC3merged).map
        (fun st => st.classes.map (fun c => (c.missing.length, c.params.length))) =
      Except.ok [(2, 1)] ∧
    runFilter srcConfig fileC3merged = Except.error PyError.indexError) := by
  exact ⟨⟨rfl, rfl⟩, ⟨rfl, rfl⟩⟩

/-- Modifying the i-th element is visible through get? at the same index. -/
theorem modifyNth_self {α : Type} (f : α → α) : ∀ (l : List α) (i : Nat),
    (modifyNth l i f).get? i = (l.get? i).map f := by
  intro l
  induction l with
  | nil => intro i; cases i <;> rfl
  | cons x xs ih =>
    intro i
    cases i with
    | zero => rfl
    | succ n =>
      show (x :: modifyNth xs n f).get? (n + 1) = ((x :: xs).get? (n + 1)).map f
      rw [List.get?_cons_succ, List.get?_cons_succ]
      exact ih n

/-- C3 (amended): alignment is guaranteed per registration whose capture
closes within the registering span.  (a) For every state and every span:
when the tracking step registers an out-of-body definition (the
scope-resolution regex matches, the class is known, the name is not
already declared inside it and not hidden) and the remainder of the same
span contains the closing parenthesis, that class's missing and params
lists grow together — each by one entry at the same index — and no capture
stays pending afterwards.  The invariant as originally claimed fails
exactly when a capture does not close within the registering span: still
open at end of file, or merged with a later registration (the two
counterexample inputs).  (b) Representative scenario: missing and params
end equally long and the emission pass succeeds. -/
theorem c3_capture_alignment :
    (∀ (st : FilterState) (output : List Char) (i e3 : Nat)
      (cname fname : List Char) (cidx j : Nat) (cd : ClassData),
      st.need_function_params = false → st.want_class_end = false →
      st.block_level = 0 →
      re_search classfunctionnameAt output = some (i, e3, cname, fname) →
      listIndex st.class_names cname = Except.ok cidx →
      st.classes.get? cidx = some cd →
      cd.functions.count fname = 0 → headUnderscore fname = false →
      findSub [')'] (output.drop (i + e3)) = some j →
      ∃ st2, track_step srcConfig st output = Except.ok (st2, output) ∧
        st2.classes.get? cidx = some { cd with
          missing := cd.missing ++ [fname],
          params := cd.params ++ [st.params_buf ++ (output.drop (i + e3)).take (j + 1)] } ∧
        st2.need_function_params = false) ∧
    ((runScan srcConfig fileC3closed).map
        (fun st => st.classes.map (fun c => (c.missing.length, c.params.length))) =
      Except.ok [(1, 1)] ∧
    (runFilter srcConfig fileC3closed).isOk = true) := by
  constructor
  · intro st output i e3 cname fname cidx j cd hp hwc hl hcf hidx hcd hcount hund hj
    rw [track_step]
    simp only [srcConfig, hp, Bool.false_eq_true, if_false, if_true, except_bind_ok, hwc, hl,
      beq_self_eq_true, hcf]
    rw [hidx, except_bind_ok]
    rw [if_pos (show (List.count fname ((st.classes.get? cidx).getD (ClassData.new [])).functions == 0 && !(true && headUnderscore fname)) = true by rw [hcd]; simp [hcount, hund])]
    rw [check_params_end]
    simp only [hj, if_true]
    rw [except_map_ok]
    refine ⟨_, rfl, ?_, rfl⟩
    show (modifyNth (modifyNth st.classes cidx _) cidx _).get? cidx = _
    rw [modifyNth_self, modifyNth_self, hcd]
    rfl
  · exact ⟨rfl, rfl⟩

/-- Witness for C3: the alignment part applied at a concrete state with one
known class and the registering span function Foo::bar(a, b), and the
representative scenario. -/
theorem c3_witness :
    (∃ st2, track_step srcConfig
        { initState with class_names := [lit "Foo"], classes := [ClassData.new (lit "Foo")] }
        (lit "function Foo::bar(a, b)\n") = Except.ok (st2, lit "function Foo::bar(a, b)\n") ∧
      st2.classes.get? 0 = some { ClassData.new (lit "Foo") with
        missing := (ClassData.new (lit "Foo")).missing ++ [lit "bar"],
        params := (ClassData.new (lit "Foo")).params ++
          [({ initState with class_names := [lit "Foo"], classes := [ClassData.new (lit "Foo")] } : FilterState).params_buf ++
            ((lit "function Foo::bar(a, b)\n").drop (0 + 17)).take (5 + 1)] } ∧
      st2.need_function_params = false) ∧
    (runFilter srcConfig fileC3closed).isOk = true :=
  ⟨c3_capture_alignment.1
      { initState with class_names := [lit "Foo"], classes := [ClassData.new (lit "Foo")] }
      (lit "function Foo::bar(a, b)\n") 0 17 (lit "Foo") (lit "bar") 0 5
      (ClassData.new (lit "Foo")) rfl rfl rfl rfl rfl rfl rfl rfl rfl,
   c3_capture_alignment.2.2⟩

/-- Dropping the greedy whitespace run is List.dropWhile. -/
theorem drop_wsRun (s : List Char) : s.drop (wsRun s) = s.dropWhile isSpaceCh := by
  induction s with
  | nil => rfl
  | cons c t ih =>
    by_cases h : isSpaceCh c
    · rw [wsRun] at ih ⊢
      simp [List.takeWhile_cons, List.dropWhile_cons, h, ih]
    · simp [wsRun, List.takeWhile_cons, List.dropWhile_cons, h]

/-- The embedded regex test \s*; agrees with the spec's wording of the
terminator test. -/
theorem classend_eq_spec (s : List Char) : re_classend_match s = terminator_follows s := by
  rw [re_classend_match, drop_wsRun, terminator_follows]
  cases s.dropWhile isSpaceCh with
  | nil => rfl
  | cons c t => rfl

/-- C6: terminator enforcement.  The source's \s*; test agrees with the
spec-side predicate "the text immediately following the brace begins with
optional whitespace then a semicolon"; when that predicate fails,
check_end_of_class inserts a semicolon directly after the closing brace
(the text resumes with ';'), and when it holds the text is left unchanged,
so no double terminator is ever produced. -/
theorem c6_terminator_enforcement :
    (∀ s : List Char, re_classend_match s = terminator_follows s) ∧
    (∀ (st : FilterState) (part : List Char), terminator_follows part = true →
      (check_end_of_class st part).2 = part) ∧
    (∀ (st : FilterState) (part : List Char), terminator_follows part = false →
      (check_end_of_class st part).2 = ';' :: part) := by
  refine ⟨classend_eq_spec, ?_, ?_⟩ <;> intro st part h <;>
    have hm := (classend_eq_spec part).trans h <;>
    rw [check_end_of_class] <;> simp only [hm] <;> split <;> simp

/-- Witness for C6 at concrete inputs: text already starting with
whitespace and a semicolon is unchanged; text without one gets the
semicolon inserted. -/
theorem c6_witness :
    (check_end_of_class initState (lit " ;)\n")).2 = lit " ;)\n" ∧
    (check_end_of_class initState (lit "\n")).2 = ';' :: lit "\n" :=
  ⟨c6_terminator_enforcement.2.1 initState _ (by rfl),
   c6_terminator_enforcement.2.2 initState _ (by rfl)⟩

/-- The leftmost occurrence of <- in u ++ <- ++ v is at position u.length
when u itself contains no occurrence. -/
theorem findSub_arrow_append (u v : List Char) (hu : findSub (lit "<-") u = none) :
    findSub (lit "<-") (u ++ lit "<-" ++ v) = some u.length := by
  rw [show lit "<-" = ['<', '-'] from rfl] at hu ⊢
  induction u with
  | nil =>
    show findSub ['<', '-'] ('<' :: '-' :: v) = some 0
    rw [findSub, if_pos (by simp [List.isPrefixOf])]
  | cons c t ih =>
    have hpre : (['<', '-'] : List Char).isPrefixOf (c :: t) = false := by
      by_contra hb
      rw [findSub, if_pos (by revert hb; cases (['<', '-'] : List Char).isPrefixOf (c :: t) <;>
        simp)] at hu
      exact Option.noConfusion hu
    have ht : findSub ['<', '-'] t = none := by
      rw [findSub, if_neg (by simp [hpre])] at hu
      cases hft : findSub ['<', '-'] t with
      | none => rfl
      | some n => rw [hft] at hu; exact Option.noConfusion hu
    have hnp : ¬ ((['<', '-'] : List Char).isPrefixOf (c :: (t ++ ['<', '-'] ++ v)) = true) := by
      by_cases hc : c = '<'
      · subst hc
        cases t with
        | nil =>
          intro hb
          simp [List.isPrefixOf] at hb
        | cons d t2 =>
          have hd : ¬ d = '-' := by
            intro hd
            subst hd
            simp [List.isPrefixOf] at hpre
          intro hb
          rw [show (d :: t2) ++ ['<', '-'] ++ v = d :: (t2 ++ ['<', '-'] ++ v) by simp] at hb
          simp [List.isPrefixOf] at hb
          exact hd hb.symm
      · intro hb
        simp [List.isPrefixOf] at hb
        exact hc hb.1.symm
    rw [show (c :: t) ++ ['<', '-'] ++ v = c :: (t ++ ['<', '-'] ++ v) by simp, findSub,
      if_neg hnp, ih ht]
    rfl

/-- C5: each substitution rule rewrites at most the leftmost occurrence.
For the field-assignment rule: if the span is u ++ "<-" ++ v where u holds
no occurrence of the sigil, only that first occurrence becomes "=" and the
tail v — which may hold further occurrences — is emitted unchanged. -/
theorem c5_first_occurrence_only (u v : List Char)
    (hu : findSub (lit "<-") u = none) :
    subst_assignment (u ++ lit "<-" ++ v) = u ++ lit "=" ++ v := by
  rw [subst_assignment, findSub_arrow_append u v hu]
  have h1 : (u ++ lit "<-" ++ v).take u.length = u := by
    rw [List.append_assoc]
    exact List.take_left u _
  have h2 : (u ++ lit "<-" ++ v).drop (u.length + 2) = v := by
    refine List.drop_left' ?_
    rw [List.length_append]
    rfl
  show (u ++ lit "<-" ++ v).take u.length ++ lit "=" ++
    (u ++ lit "<-" ++ v).drop (u.length + 2) = u ++ lit "=" ++ v
  rw [h1, h2]

/-- Witness for C5: the span "a <- b; c <- d" has its first sigil rewritten
and its second one left in place. -/
theorem c5_witness :
    findSub (lit "<-") (lit "a ") = none ∧
    subst_assignment (lit "a " ++ lit "<-" ++ lit " b; c <- d") =
      lit "a " ++ lit "=" ++ lit " b; c <- d" :=
  ⟨rfl, c5_first_occurrence_only _ _ rfl⟩

/-- A pattern that is not an infix of s is never found by findSub. -/
theorem findSub_eq_none (p : List Char) : ∀ s, ¬ p <:+: s → findSub p s = none := by
  intro s
  induction s with
  | nil =>
    intro h
    rw [findSub, if_neg]
    intro hp
    exact h (List.IsPrefix.isInfix (List.isPrefixOf_iff_prefix.mp hp))
  | cons c t ih =>
    intro h
    have hp : ¬ (p.isPrefixOf (c :: t) = true) := fun hb =>
      h (List.IsPrefix.isInfix (List.isPrefixOf_iff_prefix.mp hb))
    rw [findSub, if_neg hp, ih (fun hi => h (List.infix_cons hi))]
    rfl

/-- C4: idempotence of the non-class rewrites.  On a span with no remaining
scripting-language markers — no field-assignment sigil, no extends, no
constructor, no require( or import( directive, no private-named assignment
target and no private enum — the substitution steps of filter_part
(excluding class registration, tracking and the brace pass) leave the span
unchanged, at any nesting level and with any current class. -/
theorem c4_rewrites_idempotent (current_class : List Char) (lvl : Int) (wce : Bool)
    (s : List Char)
    (h1 : ¬ lit "<-" <:+: s) (h2 : ¬ lit "extends" <:+: s)
    (h3 : ¬ lit "constructor" <:+: s)
    (h4 : re_search requireAt s = none) (h5 : re_search importAt s = none)
    (h6 : (re_search privatevarAt s).all (fun r => !headUnderscore r.2.2) = true)
    (h7 : re_search privateenumAt s = none) :
    rewrite_rules srcConfig current_class lvl wce s = s := by
  have e1 : subst_assignment s = s := by rw [subst_assignment, findSub_eq_none _ _ h1]
  have e2 : subst_extends s = s := by rw [subst_extends, findSub_eq_none _ _ h2]
  have e3 : inject_private srcConfig lvl wce s = s := by
    rw [inject_private]
    split
    · cases hv : re_search privatevarAt s with
      | none => simp [hv, h7]
      | some r =>
        obtain ⟨i, w, grp⟩ := r
        rw [hv, Option.all_some] at h6
        simp only [Bool.not_eq_true'] at h6
        simp [hv, h6, h7]
    · rfl
  have e4 : subst_constructor srcConfig current_class s = s := by
    rw [subst_constructor, findSub_eq_none _ _ h3]
  have e5 : subst_function srcConfig s = s := rfl
  have e6 : subst_require s = s := by rw [subst_require, h4]
  have e7 : subst_import s = s := by rw [subst_import, h5]
  rw [rewrite_rules, e1, e2, e3, e4, e5, e6, e7]

/-- Witness for C4: an already-rewritten plain span (an assignment with a
public name) passes through the rewrite rules unchanged. -/
theorem c4_witness :
    rewrite_rules srcConfig (lit "Foo") 0 false (lit "x = 1;\n") = lit "x = 1;\n" :=
  c4_rewrites_idempotent (lit "Foo") 0 false (lit "x = 1;\n")
    (by decide) (by decide) (by decide) rfl rfl rfl rfl

/-- check_end_of_class computed as a pair of conditionals. -/
theorem check_end_of_class_eq (st : FilterState) (part : List Char) :
    check_end_of_class st part =
      (if st.want_class_end && st.block_level == 0 then
        { st with want_class_end := false, cur_class := none } else st,
       if re_classend_match part then part else ';' :: part) := by
  simp only [check_end_of_class]
  by_cases h : (st.want_class_end && st.block_level == 0) = true
  · rw [if_pos h, if_pos h]
  · rw [if_neg h, if_neg h]

theorem parse_blocks_go_total (s : List Char) : ∀ (st : FilterState) (out : List Char),
    (st.want_class_end = true → st.cur_class ≠ none) →
    okLevelsB st.block_level s = true →
    ∃ st2 out2, parse_blocks_go st out s = Except.ok (st2, out2) ∧
      st2.block_level = st.block_level + braceSum s ∧
      (st2.want_class_end = true → st2.cur_class ≠ none) := by
  induction s with
  | nil =>
    intro st out hwc _
    refine ⟨st, out, rfl, ?_, hwc⟩
    simp [braceSum]
  | cons c rest ih =>
    intro st out hwc hok
    rw [okLevelsB] at hok
    have hsum : braceSum (c :: rest) = braceDelta c + braceSum rest := by
      simp [braceSum]
    by_cases hlb : c = lbrace
    · subst hlb
      rw [if_pos (by simp)] at hok
      rw [Bool.and_eq_true, decide_eq_true_eq] at hok
      obtain ⟨⟨hb1, hb2⟩, hrest⟩ := hok
      simp only [parse_blocks_go, beq_self_eq_true, if_true]
      rw [if_neg (by omega)]
      obtain ⟨st2, out2, heq, hlev, hwc2⟩ :=
        ih { st with block_level := st.block_level + 1 } (out ++ [lbrace]) hwc hrest
      refine ⟨st2, out2, heq, ?_, hwc2⟩
      rw [hsum]
      have hlev2 : st2.block_level = st.block_level + 1 + braceSum rest := hlev
      rw [show braceDelta lbrace = 1 by simp [braceDelta]]
      omega
    · by_cases hrb : c = rbrace
      · subst hrb
        rw [if_neg (by simpa using hlb), if_pos (by simp)] at hok
        rw [Bool.and_eq_true, decide_eq_true_eq] at hok
        obtain ⟨⟨hb1, hb2⟩, hrest⟩ := hok
        have hdelta : braceDelta rbrace = -1 := by
          simp [braceDelta, rbrace, lbrace]
        simp only [parse_blocks_go, beq_self_eq_true, if_true]
        rw [if_neg (by simpa [beq_iff_eq] using hlb)]
        by_cases hcut : st.block_level - 1 = 0 ∧ st.want_class_end = true
        · rw [if_pos (by simp [hcut.1, hcut.2])]
          obtain ⟨ci, hci⟩ := Option.ne_none_iff_exists'.mp (hwc hcut.2)
          rw [hci]
          simp only [check_end_of_class_eq, hcut.1, hcut.2, beq_self_eq_true, Bool.true_and,
            if_true]
          rw [if_neg (by omega)]
          rw [hcut.1] at hrest
          obtain ⟨st2, out2, heq, hlev, hwc2⟩ :=
            ih { st with want_class_end := false, block_level := 0, classes := modifyNth st.classes ci (fun cd => { cd with output_buffer := st.outbuf ++ out }), outbuf := [], cur_class := none } ([rbrace] ++ List.take ((if re_classend_match rest = true then rest else ';' :: rest).length - rest.length) (if re_classend_match rest = true then rest else ';' :: rest)) (by simp) hrest
          refine ⟨st2, out2, heq, ?_, hwc2⟩
          rw [hsum, hdelta]
          have hlev2 : st2.block_level = 0 + braceSum rest := hlev
          omega
        · have hcond : ¬ ((st.block_level - 1 == 0 && st.want_class_end) = true) := by
            intro hB
            rw [Bool.and_eq_true, beq_iff_eq] at hB
            exact hcut ⟨hB.1, hB.2⟩
          rw [if_neg hcond]
          have hcond2 : ¬ ((st.want_class_end && st.block_level - 1 == 0) = true) := by
            intro hB
            rw [Bool.and_eq_true, beq_iff_eq] at hB
            exact hcut ⟨hB.2, hB.1⟩
          simp only [check_end_of_class_eq]
          rw [if_neg hcond2]
          have hbnd : ¬ (({ st with block_level := st.block_level - 1 } : FilterState).block_level < 0 ∨ ({ st with block_level := st.block_level - 1 } : FilterState).block_level > 50) := by
            show ¬ (st.block_level - 1 < 0 ∨ st.block_level - 1 > 50)
            omega
          rw [if_neg hbnd]
          obtain ⟨st2, out2, heq, hlev, hwc2⟩ :=
            ih { st with block_level := st.block_level - 1 }
              ((out ++ [rbrace]) ++
                List.take
                  ((if re_classend_match rest = true then rest else ';' :: rest).length -
                    rest.length)
                  (if re_classend_match rest = true then rest else ';' :: rest))
              hwc hrest
          refine ⟨st2, out2, heq, ?_, hwc2⟩
          rw [hsum, hdelta]
          have hlev2 : st2.block_level = st.block_level - 1 + braceSum rest := hlev
          omega
      · rw [if_neg (by simpa using hlb), if_neg (by simpa using hrb)] at hok
        simp only [parse_blocks_go]
        rw [if_neg (by simpa using hlb), if_neg (by simpa using hrb)]
        obtain ⟨st2, out2, heq, hlev, hwc2⟩ := ih st (out ++ [c]) hwc hok
        refine ⟨st2, out2, heq, ?_, hwc2⟩
        rw [hsum, show braceDelta c = 0 from by simp [braceDelta, hlb, hrb]]
        omega
/-- C2: brace balance.  (a) For every span fed to the brace tracker whose
brace word is balanced from depth 0 — after each brace the depth stays
within the sanity bound [0, 50] and the total balance is 0 — parse_blocks
succeeds and block_level is 0 after the whole span has been scanned.
(b) A span with one more closing brace than opening braces at top level (a
bare closing brace processed from the initial state) raises the fatal
structural ValueError, the depth having gone below 0. -/
theorem c2_brace_balance :
    (∀ (st : FilterState) (part : List Char), st.block_level = 0 →
      (st.want_class_end = true → st.cur_class ≠ none) →
      okLevelsB 0 part = true → braceSum part = 0 →
      ∃ st2 out2, parse_blocks st part = Except.ok (st2, out2) ∧ st2.block_level = 0)
    ∧ parse_blocks initState (lit "\x7d") =
        Except.error (PyError.valueError (endlessMsg (-1))) := by
  constructor
  · intro st part h0 hwc hok hsum
    obtain ⟨st2, out2, heq, hlev, _⟩ :=
      parse_blocks_go_total part st [] hwc (by rw [h0]; exact hok)
    refine ⟨st2, out2, heq, ?_⟩
    rw [hlev]
    omega
  · rfl

/-- Witness for C2: a balanced span scans to depth 0; an extra closing
brace is the fatal error. -/
theorem c2_witness :
    (∃ st2 out2, parse_blocks initState (lit "a \x7b b \x7d c") = Except.ok (st2, out2) ∧
      st2.block_level = 0) ∧
    parse_blocks initState (lit "\x7d") =
      Except.error (PyError.valueError (endlessMsg (-1))) :=
  ⟨c2_brace_balance.1 initState (lit "a \x7b b \x7d c") rfl (by decide) (by rfl) (by rfl),
   c2_brace_balance.2⟩

theorem listIndex_not_mem (l : List (List Char)) (a : List Char) (h : a ∉ l) :
    listIndex l a = Except.error (PyError.valueError "not in list") := by
  induction l with
  | nil => rfl
  | cons x xs ih =>
    have hxa : ¬ (x = a) := fun he => h (by rw [← he]; exact List.mem_cons_self x xs)
    rw [listIndex, if_neg hxa, ih (fun hm => h (List.mem_cons_of_mem x hm))]
    rfl

theorem c10_unknown_class (st : FilterState)
    (hp : st.need_function_params = false) (hws : st.want_class_start = false)
    (hwc : st.want_class_end = false) (hl : st.block_level = 0)
    (hno : lit "Foo" ∉ st.class_names) :
    filter_part srcConfig st (lit "function Foo::bar()\n") =
      Except.error (PyError.valueError "not in list") := by
  have e0 : subst_extends (subst_assignment (lit "function Foo::bar()\n")) =
      lit "function Foo::bar()\n" := by rfl
  have ecr : re_search classnameAt (lit "function Foo::bar()\n") = none := by rfl
  have ecf : re_search classfunctionnameAt (lit "function Foo::bar()\n") =
      some (0, 17, lit "Foo", lit "bar") := by rfl
  rw [filter_part, e0]
  simp only [class_register, ecr]
  simp only [class_start_step, hws, Bool.false_eq_true, if_false]
  rw [track_step]
  simp only [srcConfig, hp, Bool.false_eq_true, if_false, if_true, except_bind_ok, hwc, hl,
    beq_self_eq_true, ecf]
  rw [listIndex_not_mem _ _ hno]
  rw [except_bind_err]
  rw [except_bind_err]

theorem c10_witness :
    filter_part srcConfig initState (lit "function Foo::bar()\n") =
      Except.error (PyError.valueError "not in list") :=
  c10_unknown_class initState rfl rfl rfl rfl (by decide)

theorem parse_blocks_no_brace (s : List Char) : ∀ (st : FilterState) (out : List Char),
    (∀ c ∈ s, ¬ c = lbrace ∧ ¬ c = rbrace) → parse_blocks_go st out s = Except.ok (st, out ++ s) := by
  induction s with
  | nil =>
    intro st out _
    simp [parse_blocks_go]
  | cons c rest ih =>
    intro st out h
    obtain ⟨h1, h2⟩ := h c (List.mem_cons_self c rest)
    rw [parse_blocks_go, if_neg (by simpa using h1), if_neg (by simpa using h2),
      ih st (out ++ [c]) (fun d hd => h d (List.mem_cons_of_mem c hd))]
    simp

theorem c7_private_markers (st : FilterState)
    (hp : st.need_function_params = false) (hws : st.want_class_start = false) :
    (st.block_level = 0 → st.want_class_end = false →
      filter_part srcConfig st (lit "_x = 1;\n") =
        Except.ok { st with outbuf := st.outbuf ++ lit " /** @internal */ _x = 1;\n" }) ∧
    (st.block_level = 1 → st.want_class_end = true →
      filter_part srcConfig st (lit "_x = 1;\n") =
        Except.ok { st with outbuf := st.outbuf ++ lit " /** @private */ _x = 1;\n" }) ∧
    (st.block_level = 2 →
      filter_part srcConfig st (lit "_x = 1;\n") =
        Except.ok { st with outbuf := st.outbuf ++ lit "_x = 1;\n" }) := by
  have e0 : subst_extends (subst_assignment (lit "_x = 1;\n")) = lit "_x = 1;\n" := by rfl
  have ecr : re_search classnameAt (lit "_x = 1;\n") = none := by rfl
  have ecf : re_search classfunctionnameAt (lit "_x = 1;\n") = none := by rfl
  have efn : re_search functionnameAt (lit "_x = 1;\n") = none := by rfl
  have einj0 : inject_private srcConfig 0 false (lit "_x = 1;\n") =
      lit " /** @internal */ _x = 1;\n" := by rfl
  have einj1 : inject_private srcConfig 1 true (lit "_x = 1;\n") =
      lit " /** @private */ _x = 1;\n" := by rfl
  have einj2 : ∀ b : Bool, inject_private srcConfig 2 b (lit "_x = 1;\n") = lit "_x = 1;\n" :=
    fun b => by cases b <;> rfl
  have econs : ∀ (cc s1 : List Char), findSub (lit "constructor") s1 = none →
      subst_constructor srcConfig cc s1 = s1 := fun cc s1 hn => by
    rw [subst_constructor, hn]
  refine ⟨?_, ?_, ?_⟩
  · intro hl hwc
    rw [filter_part, e0]
    simp only [class_register, ecr]
    simp only [class_start_step, hws, Bool.false_eq_true, if_false]
    rw [track_step]
    simp only [srcConfig, hp, Bool.false_eq_true, if_false, if_true, except_bind_ok, hwc, hl,
      beq_self_eq_true, ecf]
    rw [show ({ keep_function := true, keep_constructor := true, check_end_of_class := true, track_class_functions := true, hide_private_symbols := true } : Config) = srcConfig from rfl]
    rw [einj0, econs st.current_class _ (by rfl)]
    rw [show subst_import (subst_require (subst_function srcConfig
      (lit " /** @internal */ _x = 1;\n"))) = lit " /** @internal */ _x = 1;\n" from by rfl]
    rw [parse_blocks, parse_blocks_no_brace _ st [] (by decide), except_bind_ok]
    simp [hws, hwc, hl, hp]
  · intro hl hwc
    rw [filter_part, e0]
    simp only [class_register, ecr]
    simp only [class_start_step, hws, Bool.false_eq_true, if_false]
    rw [track_step]
    simp only [srcConfig, hp, Bool.false_eq_true, if_false, if_true, except_bind_ok, hwc, hl,
      efn]
    rw [show ({ keep_function := true, keep_constructor := true, check_end_of_class := true, track_class_functions := true, hide_private_symbols := true } : Config) = srcConfig from rfl]
    rw [einj1, econs st.current_class _ (by rfl)]
    rw [show subst_import (subst_require (subst_function srcConfig
      (lit " /** @private */ _x = 1;\n"))) = lit " /** @private */ _x = 1;\n" from by rfl]
    rw [parse_blocks, parse_blocks_no_brace _ st [] (by decide), except_bind_ok]
    simp [hws, hwc, hl, hp]
  · intro hl
    by_cases hwc : st.want_class_end = true
    · rw [filter_part, e0]
      simp only [class_register, ecr]
      simp only [class_start_step, hws, Bool.false_eq_true, if_false]
      rw [track_step]
      simp only [srcConfig, hp, Bool.false_eq_true, if_false, if_true, except_bind_ok, hwc, hl,
        efn]
      rw [show ({ keep_function := true, keep_constructor := true, check_end_of_class := true, track_class_functions := true, hide_private_symbols := true } : Config) = srcConfig from rfl]
      rw [einj2 true, econs st.current_class _ (by rfl)]
      rw [show subst_import (subst_require (subst_function srcConfig
        (lit "_x = 1;\n"))) = lit "_x = 1;\n" from by rfl]
      rw [parse_blocks, parse_blocks_no_brace _ st [] (by decide), except_bind_ok]
      simp [hws, hwc, hl, hp]
    · have hwcf : st.want_class_end = false := by
        cases hwcs : st.want_class_end
        · rfl
        · exact absurd hwcs hwc
      rw [filter_part, e0]
      simp only [class_register, ecr]
      simp only [class_start_step, hws, Bool.false_eq_true, if_false]
      rw [track_step]
      simp only [srcConfig, hp, Bool.false_eq_true, if_false, if_true, except_bind_ok, hwcf, hl,
        show ((2 : Int) == 0) = false from by decide, ecf]
      rw [show ({ keep_function := true, keep_constructor := true, check_end_of_class := true, track_class_functions := true, hide_private_symbols := true } : Config) = srcConfig from rfl]
      rw [einj2 false, econs st.current_class _ (by rfl)]
      rw [show subst_import (subst_require (subst_function srcConfig
        (lit "_x = 1;\n"))) = lit "_x = 1;\n" from by rfl]
      rw [parse_blocks, parse_blocks_no_brace _ st [] (by decide), except_bind_ok]
      simp [hws, hwcf, hl, hp]

theorem c7_witness :
    filter_part srcConfig initState (lit "_x = 1;\n") =
      Except.ok { initState with outbuf := lit " /** @internal */ _x = 1;\n" } ∧
    filter_part srcConfig { initState with block_level := 1, want_class_end := true }
        (lit "_x = 1;\n") =
      Except.ok { initState with block_level := 1, want_class_end := true, outbuf := lit " /** @private */ _x = 1;\n" } ∧
    filter_part srcConfig { initState with block_level := 2 } (lit "_x = 1;\n") =
      Except.ok { initState with block_level := 2, outbuf := lit "_x = 1;\n" } :=
  ⟨(c7_private_markers initState rfl rfl).1 rfl rfl,
   (c7_private_markers { initState with block_level := 1, want_class_end := true } rfl rfl).2.1
     rfl rfl,
   (c7_private_markers { initState with block_level := 2 } rfl rfl).2.2 rfl⟩
end SquirrelFilter
